import Mathlib

/-!
Shallow embedding of the CampusPulse notification core (`app/main.py`):
location resolution, journey planning, email rendering, and the two
periodic reminder jobs with their dedup stores.

Modelling conventions:
* timestamps are `Int` minutes since a fixed epoch; a calendar day `d`
  covers minutes `[1440*d, 1440*d + 1439]` (the source compares against
  `datetime.combine(day, time.min/After.max)`, which at whole-minute
  resolution is exactly this window);
* floating-point coordinates are never computed with, only passed
  through, so they are modelled as opaque `Int × Int` pairs;
* external HTTP calls (transit search, geocoding, routing, email
  delivery) are oracles supplied in an `Ext` record; fallible calls
  return `Except String`, mirroring the exceptions `bvg_get` /
  `raise_for_status` raise in the source;
* Python truthiness on optional strings (`if home:`, `x or y`) is
  modelled by `pyTruthyS` / `pyOrS` (empty string is falsy).
-/

namespace CampusPulse

/-- Python truthiness of an optional string: `None` and `""` are falsy. -/
def pyTruthyS : Option String → Bool
  | none => false
  | some s => decide (s ≠ "")

/-- Python `a or b` where `a` is an optional string and `b` a string. -/
def pyOrS (a : Option String) (b : String) : String :=
  match a with
  | none => b
  | some s => if s = "" then b else s

/-- Python `a or b` on two plain strings (`""` is falsy). -/
def pyOrStr (a b : String) : String :=
  if a = "" then b else a

/-- Splitter for Python `s.split(sep)` with a one-character separator
(structural recursion over the character list). -/
def splitCharAux (sep : Char) : List Char → List Char → List (List Char)
  | [], acc => [acc.reverse]
  | c :: cs, acc =>
    if c = sep then acc.reverse :: splitCharAux sep cs []
    else splitCharAux sep cs (c :: acc)

/-- Python `s.split(":")` (note `"".split(":") == [""]`). -/
def splitColon (s : String) : List String :=
  (splitCharAux ':' s.toList []).map List.asString

/-- Model of `s.split(":")[-1]`: the final segment of a colon-delimited string. -/
def lastColonSeg (s : String) : String :=
  (splitColon s).getLastD ""

/-- Python `str.isdigit` restricted to ASCII: nonempty and all digits. -/
def pyIsDigit (s : String) : Bool :=
  decide (s ≠ "") && s.toList.all Char.isDigit

/-- Chars allowed inside a Python integer literal body (digit or underscore). -/
def pyIntBodyChar (c : Char) : Bool :=
  c.isDigit || c = '_'

/-- No two consecutive underscores. -/
def noDoubleUnderscore : List Char → Bool
  | '_' :: '_' :: _ => false
  | _ :: cs => noDoubleUnderscore cs
  | [] => true

/-- Valid digit run for Python `int()`: digits with single interior
underscores (no leading/trailing underscore). -/
def pyDigitRun (cs : List Char) : Bool :=
  match cs with
  | [] => false
  | c :: _ =>
    c.isDigit && (cs.getLastD '0').isDigit && cs.all pyIntBodyChar &&
      noDoubleUnderscore cs

/-- Numeric value of a digit run, underscores skipped. -/
def digitsVal (cs : List Char) : Nat :=
  cs.foldl (fun acc c => if c.isDigit then acc * 10 + (c.toNat - 48) else acc) 0

/-- Python `s.strip()` on ASCII whitespace. -/
def pyStrip (s : String) : String :=
  List.asString
    (((s.toList.dropWhile Char.isWhitespace).reverse.dropWhile
      Char.isWhitespace).reverse)

/-- Model of Python `int(s)`: strip whitespace, optional sign, digit run
(with underscores); `none` when `int()` would raise `ValueError`. -/
def pyInt (s : String) : Option Int :=
  let t := pyStrip s
  match t.toList with
  | '+' :: rest => if pyDigitRun rest then some (Int.ofNat (digitsVal rest)) else none
  | '-' :: rest => if pyDigitRun rest then some (-(Int.ofNat (digitsVal rest))) else none
  | cs => if pyDigitRun cs then some (Int.ofNat (digitsVal cs)) else none

/-- Model of `hh, mm = map(int, s.split(":"))`: succeeds only on exactly two
colon-separated integer fields. -/
def parseHHMM (s : String) : Option (Int × Int) :=
  match splitColon s with
  | [a, b] =>
    match pyInt a, pyInt b with
    | some h, some m => some (h, m)
    | _, _ => none
  | _ => none

/-- First minute of calendar day `d`. -/
def dayStart (d : Int) : Int := 1440 * d

/-- Last whole minute of calendar day `d` (`datetime.combine(day, time.max)`
at minute resolution). -/
def dayEndMax (d : Int) : Int := 1440 * d + 1439

/-- Model of `build_arrival_datetime(arrival_time_str, timing_pref)` evaluated with
current date `today`.  `.ok none` = no arrival constraint; `.error` models
the uncaught `ValueError` the `datetime` constructor raises for parseable
but out-of-range components. -/
def build_arrival_datetime (arrival_time_str : Option String)
    (timing_pref : String) (today : Int) : Except String (Option Int) :=
  match arrival_time_str with
  | none => .ok none
  | some s =>
    if s = "" then .ok none
    else
      match parseHHMM s with
      | none => .ok none
      | some (hh, mm) =>
        if 0 ≤ hh ∧ hh ≤ 23 ∧ 0 ≤ mm ∧ mm ≤ 59 then
          .ok (some (dayStart today + hh * 60 + mm +
            (if timing_pref = "later" then 10 else -10)))
        else .error "ValueError: invalid time component"

/-! ## Transit place candidates and `normalize_stop_id` -/

/-- Nested `station` sub-object of a place candidate. -/
structure Station where
  id : Option String
deriving DecidableEq, Repr

/-- Nested `location` sub-object of a place candidate. -/
structure SubLoc where
  latitude : Option Int
  longitude : Option Int
deriving DecidableEq, Repr

/-- A place candidate returned by the transit search (`/locations`). -/
structure Item where
  ibnr : Option String
  id : Option String
  station : Option Station
  name : Option String
  latitude : Option Int
  longitude : Option Int
  location : Option SubLoc
deriving DecidableEq, Repr

/-- Model of `extract_coords(item)`: the candidate's own coordinate if both fields
are present, else the nested `location` coordinate, else `None`. -/
def extract_coords (item : Item) : Option (Int × Int) :=
  match item.latitude, item.longitude with
  | some la, some lo => some (la, lo)
  | _, _ =>
    match item.location with
    | none => none
    | some loc =>
      match loc.latitude, loc.longitude with
      | some la, some lo => some (la, lo)
      | _, _ => none

/-- The inner `pick_id` of `normalize_stop_id`: last colon segment of a
truthy string, `None` for missing/empty values and empty segments. -/
def pick_id (val : Option String) : Option String :=
  match val with
  | none => none
  | some v =>
    if v = "" then none
    else if lastColonSeg v = "" then none
    else some (lastColonSeg v)

/-- One field check of `normalize_stop_id`: `pick_id` followed by the
caller's `and ... .isdigit()` guard. -/
def checkedId (v : Option String) : Option String :=
  match pick_id v with
  | none => none
  | some s => if pyIsDigit s then some s else none

/-- Model of `normalize_stop_id(item)`: first all-digit final segment among the
`ibnr` field, the `id` field, then the nested station's `id` field. -/
def normalize_stop_id (item : Item) : Option String :=
  match checkedId item.ibnr with
  | some s => some s
  | none =>
    match checkedId item.id with
    | some s => some s
    | none => checkedId (item.station.bind Station.id)

/-- Modelled from the spec (§4.1, for the C5 refinement comparison): a
candidate field "may be a colon-delimited compound string; only the final
segment is taken, and it is accepted only if it consists entirely of
digits". -/
def specDigitSeg (v : Option String) : Option String :=
  v.bind fun s =>
    let seg := lastColonSeg s
    if seg ≠ "" ∧ seg.toList.all Char.isDigit then some seg else none

/-! ## Resolved locations, preferences, journeys -/

/-- Result dict of `resolve_location`. -/
structure ResolvedLoc where
  id : Option String
  name : String
  coords : Option (Int × Int)
deriving DecidableEq, Repr

/-- A geocoder hit (`display_name`, `lat`, `lon`). -/
structure GeoItem where
  display_name : Option String
  lat : Int
  lon : Int
deriving DecidableEq, Repr

/-- One `user_preferences` row. -/
structure PrefRow where
  allow_ubahn : Bool
  allow_sbahn : Bool
  allow_regional : Bool
  allow_tram : Bool
  allow_bus : Bool
  timing_pref : String
  arrival_time : Option String
  home_location : Option String
deriving DecidableEq, Repr

/-- Python `prefs.get("allow_ubahn", True)` on an absent-or-present row. -/
def prefUbahn : Option PrefRow → Bool
  | none => true
  | some r => r.allow_ubahn

/-- Python `prefs.get("allow_sbahn", True)`. -/
def prefSbahn : Option PrefRow → Bool
  | none => true
  | some r => r.allow_sbahn

/-- Python `prefs.get("allow_regional", True)`. -/
def prefRegional : Option PrefRow → Bool
  | none => true
  | some r => r.allow_regional

/-- Python `prefs.get("allow_tram", True)`. -/
def prefTram : Option PrefRow → Bool
  | none => true
  | some r => r.allow_tram

/-- Python `prefs.get("allow_bus", True)`. -/
def prefBus : Option PrefRow → Bool
  | none => true
  | some r => r.allow_bus

/-- Python `prefs.get("timing_pref", "earlier")`. -/
def prefTiming : Option PrefRow → String
  | none => "earlier"
  | some r => r.timing_pref

/-- Python `prefs.get("arrival_time")`. -/
def prefArrival : Option PrefRow → Option String
  | none => none
  | some r => r.arrival_time

/-- Python `prefs.get("home_location") if prefs else None`. -/
def prefHome : Option PrefRow → Option String
  | none => none
  | some r => r.home_location

/-- One leg of a journey as consumed by the renderer. -/
structure Leg where
  departure : Option String
  arrival : Option String
  line_name : Option String
  mode : Option String
  origin_name : Option String
  destination_name : Option String
deriving DecidableEq, Repr

/-- A journey returned by `/journeys` (only its legs are consumed). -/
structure Journey where
  legs : Option (List Leg)
deriving DecidableEq, Repr

/-- Origin/destination part of a `/journeys` request: either a stop-id
pair or a coordinate pair with display names. -/
inductive Endpoints where
  | byId (fromId toId : String)
  | byCoords (fromLat fromLon : Int) (fromName : String)
      (toLat toLon : Int) (toName : String)
deriving DecidableEq, Repr

/-- The full `/journeys` request the planner assembles (`results=3`,
`polylines=false` are fixed in the source and carried verbatim). -/
structure Request where
  endpoints : Endpoints
  results : Nat
  polylines : Bool
  subway : Bool
  suburban : Bool
  regional : Bool
  tram : Bool
  bus : Bool
  arrival : Option Int
deriving DecidableEq, Repr

/-- Endpoint selection of `build_journey`: id pair when both endpoints
have a truthy id; otherwise a coordinate pair (names passed through with
the source's `or` defaults), or `none` when a coordinate is missing. -/
def journeyEndpoints (origin destination : ResolvedLoc) : Option Endpoints :=
  if pyTruthyS origin.id && pyTruthyS destination.id then
    some (.byId (origin.id.getD "") (destination.id.getD ""))
  else
    match origin.coords, destination.coords with
    | some (fla, flo), some (tla, tlo) =>
      some (.byCoords fla flo (pyOrStr origin.name "Start")
        tla tlo (pyOrStr destination.name "Campus Jungfernsee"))
    | _, _ => none

/-- Assembles the request params dict of `build_journey`. -/
def mkRequest (ep : Endpoints) (prefs : Option PrefRow) (arrival : Option Int) :
    Request :=
  { endpoints := ep
    results := 3
    polylines := false
    subway := prefUbahn prefs
    suburban := prefSbahn prefs
    regional := prefRegional prefs
    tram := prefTram prefs
    bus := prefBus prefs
    arrival := arrival }

/-- Model of `build_journey(origin, destination, prefs)` against a routing oracle
`route`.  Returns the request actually issued (if any) together with the
selected journey; `.error` models the uncaught exceptions of `bvg_get`
and of the arrival-time construction. -/
def build_journey (origin destination : ResolvedLoc) (prefs : Option PrefRow)
    (route : Request → Except String (List Journey)) (today : Int) :
    Except String (Option Request × Option Journey) :=
  match journeyEndpoints origin destination with
  | none => .ok (none, none)
  | some ep =>
    match build_arrival_datetime (prefArrival prefs) (prefTiming prefs) today with
    | .error e => .error e
    | .ok arr =>
      let req := mkRequest ep prefs arr
      match route req with
      | .error e => .error e
      | .ok js =>
        match js with
        | [] => .ok (some req, none)
        | j :: _ => .ok (some req, some j)

/-! ## External world oracles -/

/-- Outcome of `send_brevo_email`: dispatched, silently skipped because
Brevo is unconfigured (the function returns without sending, the caller
still records), or raised (caught by the job's `except`). -/
inductive SendOutcome where
  | sent
  | skipped
  | raised
deriving DecidableEq, Repr

/-- The external collaborators of one job tick: transit search, geocoder,
router, and email delivery.  Fallible calls model the exceptions the
source raises (`HTTPException` from `bvg_get`, `raise_for_status`). -/
structure Ext where
  search : String → Except String (List Item)
  geocode : String → Except String (Option GeoItem)
  route : Request → Except String (List Journey)
  send : String → String → String → SendOutcome

/-- Model of `resolve_location(query)`: first candidate with a stop id, else first
candidate with a coordinate, else geocoder fallback. -/
def resolve_location (ext : Ext) (query : String) :
    Except String ResolvedLoc :=
  match ext.search query with
  | .error e => .error e
  | .ok items =>
    match items.find? (fun it => (normalize_stop_id it).isSome) with
    | some it => .ok ⟨normalize_stop_id it, pyOrS it.name query, extract_coords it⟩
    | none =>
      match items.find? (fun it => (extract_coords it).isSome) with
      | some it => .ok ⟨none, pyOrS it.name query, extract_coords it⟩
      | none =>
        match ext.geocode query with
        | .error e => .error e
        | .ok none => .ok ⟨none, query, none⟩
        | .ok (some g) =>
          .ok ⟨none, pyOrS g.display_name query, some (g.lat, g.lon)⟩

/-! ## Class rows and day selection -/

/-- One `classes` row as the jobs read it (`end_time` is nullable for
rows predating the `ALTER TABLE`). -/
structure ClassRow where
  course_name : String
  start_time : Int
  end_time : Option Int
  location : String
deriving DecidableEq, Repr

/-- Stable insertion step for `ORDER BY start_time ASC`. -/
def insertByStart (c : ClassRow) : List ClassRow → List ClassRow
  | [] => [c]
  | d :: ds =>
    if c.start_time ≤ d.start_time then c :: d :: ds
    else d :: insertByStart c ds

/-- Stable sort by ascending `start_time`. -/
def sortByStart (l : List ClassRow) : List ClassRow :=
  l.foldr insertByStart []

/-- Model of `classes_for_day(conn, user_id, day)` over the user's rows: rows whose
`start_time` falls inside the day, ordered by `start_time` ascending. -/
def classes_for_day (rows : List ClassRow) (day : Int) : List ClassRow :=
  sortByStart (rows.filter
    (fun c => decide (dayStart day ≤ c.start_time) &&
      decide (c.start_time ≤ dayEndMax day)))

/-- Model of `last_class_end(conn, user_id, day)`: `MAX(end_time)` over the user's
rows whose `end_time` falls inside the day (`none` = SQL `NULL`). -/
def last_class_end (rows : List ClassRow) (day : Int) : Option Int :=
  (rows.filterMap (fun c =>
    c.end_time.bind (fun e =>
      if dayStart day ≤ e ∧ e ≤ dayEndMax day then some e else none))).max?

/-- The return-reminder eligibility test
`target <= now <= target + timedelta(minutes=5)` with
`target = last_end - timedelta(minutes=30)`. -/
def eligibleWindow (lastEnd now : Int) : Bool :=
  decide (lastEnd - 30 ≤ now) && decide (now ≤ lastEnd - 30 + 5)

/-! ## Email rendering (`build_journey_email`) -/

/-- Two-digit decimal rendering of a small number. -/
def fmt2 (n : Nat) : String :=
  if n < 10 then "0" ++ toString n else toString n

/-- Rendering `strftime("%H:%M")` of a minute timestamp. -/
def fmtHM (t : Int) : String :=
  let m := (t.emod 1440).toNat
  fmt2 (m / 60) ++ ":" ++ fmt2 (m % 60)

/-- Python slice `s[a:b]` on our ASCII model strings. -/
def pySlice (s : String) (a b : Nat) : String :=
  String.mk ((s.toList.drop a).take (b - a))

/-- One class table row:
`<tr><td>{time}</td><td>{course}</td><td>{location}</td></tr>` where
`time` is `start-end`, the end omitted when absent. -/
def classRowHtml (c : ClassRow) : String :=
  let start_str := fmtHM c.start_time
  let time_str :=
    match c.end_time with
    | some e => start_str ++ "-" ++ fmtHM e
    | none => start_str
  "<tr><td>" ++ time_str ++ "</td><td>" ++ c.course_name ++ "</td><td>" ++
    c.location ++ "</td></tr>"

/-- The placeholder row rendered when the accumulated class rows are
empty (the colspan attribute keeps the source quoting, written as x27 escapes). -/
def noClassesRow : String :=
  "<tr><td colspan=\x273\x27>No classes today.</td></tr>"

/-- One journey-leg row: mode/line label, `HH:MM` departure/arrival slices
of the leg timestamps, and origin/destination names. -/
def legRowHtml (l : Leg) : String :=
  let dep := pySlice (l.departure.getD "") 11 16
  let arr := pySlice (l.arrival.getD "") 11 16
  let mode := pyOrS l.line_name (pyOrS l.mode "Travel")
  let origin := pyOrS l.origin_name "Start"
  let dest := pyOrS l.destination_name "End"
  "<tr><td>" ++ mode ++ "</td><td>" ++ dep ++ "-" ++ arr ++ "</td><td>" ++
    origin ++ " → " ++ dest ++ "</td></tr>"

/-- The route-section f-string around the leg rows. -/
def journeyShellHtml (leg_rows : String) : String :=
  "\n          <h3 style=\"margin:20px 0 8px;\">Route to Campus Jungfernsee</h3>\n          <table style=\"width:100%;border-collapse:collapse;\">\n            <tr><th align=\"left\">Line</th><th align=\"left\">Time</th><th align=\"left\">Segment</th></tr>\n            "
    ++ leg_rows ++ "\n          </table>\n        "

/-- The outer email f-string around the class rows and route section. -/
def emailShellHtml (user_email class_rows journey_html : String) : String :=
  "\n    <div style=\"font-family:Arial,sans-serif;color:#0f172a;line-height:1.4;\">\n      <h2 style=\"margin:0 0 8px;\">CampusPulse Daily Reminder</h2>\n      <p>Good morning "
    ++ user_email ++
    ", here is your schedule for today.</p>\n      <h3 style=\"margin:16px 0 8px;\">Classes</h3>\n      <table style=\"width:100%;border-collapse:collapse;\">\n        <tr><th align=\"left\">Time</th><th align=\"left\">Course</th><th align=\"left\">Location</th></tr>\n        "
    ++ class_rows ++ "\n      </table>\n      " ++ journey_html ++ "\n    </div>\n    "

/-- Model of `build_journey_email(user_email, classes, journey)`: accumulates class
rows by string concatenation exactly as the source loop does, substitutes
the placeholder when the accumulated string is empty, and appends the
route section only when a journey is present. -/
def build_journey_email (user_email : String) (classes : List ClassRow)
    (journey : Option Journey) : String :=
  let class_rows := classes.foldl (fun acc c => acc ++ classRowHtml c) ""
  let class_rows := if class_rows = "" then noClassesRow else class_rows
  let journey_html :=
    match journey with
    | none => ""
    | some j =>
      let legs := j.legs.getD []
      let leg_rows := legs.foldl (fun acc l => acc ++ legRowHtml l) ""
      journeyShellHtml leg_rows
  emailShellHtml user_email class_rows journey_html

/-- Concatenation of a list of strings (no separator). -/
def joinStr : List String → String
  | [] => ""
  | s :: rest => s ++ joinStr rest

/-- Modelled from the spec (§4.3, for the C8 refinement comparison):
classes rendered one row per class in the supplied order, a single
placeholder row for an empty list. -/
def specClassRows (classes : List ClassRow) : String :=
  if classes.isEmpty then noClassesRow
  else joinStr (classes.map classRowHtml)

/-- Modelled from the spec (§4.3, for the C8 refinement comparison): the
route section is omitted entirely for an absent journey, else has one row
per leg. -/
def specJourneySection : Option Journey → String
  | none => ""
  | some j => journeyShellHtml (joinStr ((j.legs.getD []).map legRowHtml))

/-- Modelled from the spec (§4.3, for the C8 refinement comparison): the
whole rendered document. -/
def specRenderEmail (user_email : String) (classes : List ClassRow)
    (journey : Option Journey) : String :=
  emailShellHtml user_email (specClassRows classes) (specJourneySection journey)

/-! ## Dedup store state and the two scheduler jobs -/

/-- One actually dispatched email, tagged with the (user, day, kind)
tuple the dispatch belongs to. -/
structure Sent where
  uid : Nat
  day : Int
  kind : String
  to_email : String
  subject : String
  html : String
deriving DecidableEq, Repr

/-- Persistent state the jobs touch: the two dedup tables plus a log of
dispatched emails (rows are appended in commit order). -/
structure St where
  email_notifications : List (Nat × Int)
  reminder_logs : List (Nat × Int × String)
  sent : List Sent
deriving DecidableEq, Repr

/-- Empty database. -/
def initSt : St := ⟨[], [], []⟩

/-- The read-side environment of one tick: the `users` table, the
preference and class rows per user id, and the tick's wall-clock minute. -/
structure Env where
  users : List (Nat × String)
  prefs : Nat → Option PrefRow
  classes : Nat → List ClassRow
  now : Int

/-- The calendar day of the tick (`datetime.now(TZ).date()`). -/
def todayOf (env : Env) : Int := Int.fdiv env.now 1440

/-- The daily job's home→campus journey resolution for one user
(`resolve_location` twice, then `build_journey`); `none` when no truthy
`home_location` is set. -/
def daily_journey (ext : Ext) (prefs : Option PrefRow) (today : Int) :
    Except String (Option Journey) :=
  let home := prefHome prefs
  if pyTruthyS home then
    match resolve_location ext (home.getD "") with
    | .error e => .error e
    | .ok origin =>
      match resolve_location ext "Campus Jungfernsee" with
      | .error e => .error e
      | .ok destination =>
        match build_journey origin destination prefs ext.route today with
        | .error e => .error e
        | .ok r => .ok r.2
  else .ok none

/-- One user's iteration of `send_daily_emails`: dedup check, empty-day
check, journey resolution (uncaught on failure), render, guarded send,
record on non-raising send. -/
def send_daily_user (ext : Ext) (env : Env) (today : Int) (st : St)
    (uid : Nat) (email : String) : Except String St :=
  if (uid, today) ∈ st.email_notifications then .ok st
  else
    let prefs := env.prefs uid
    let classes := classes_for_day (env.classes uid) today
    if classes.isEmpty then .ok st
    else
      match daily_journey ext prefs today with
      | .error e => .error e
      | .ok j =>
        let html := build_journey_email email classes j
        match ext.send email "CampusPulse daily reminder" html with
        | .raised => .ok st
        | .sent => .ok { st with
            email_notifications := st.email_notifications ++ [(uid, today)],
            sent := st.sent ++
              [⟨uid, today, "daily", email, "CampusPulse daily reminder", html⟩] }
        | .skipped => .ok { st with
            email_notifications := st.email_notifications ++ [(uid, today)] }

/-- The daily job's user loop; an uncaught per-user exception aborts the
remaining users (`.2 = some e`) leaving the committed state so far. -/
def send_daily_go (ext : Ext) (env : Env) (today : Int) :
    List (Nat × String) → St → St × Option String
  | [], st => (st, none)
  | (uid, email) :: rest, st =>
    match send_daily_user ext env today st uid email with
    | .error e => (st, some e)
    | .ok st' => send_daily_go ext env today rest st'

/-- One tick of `send_daily_emails`. -/
def send_daily_emails (ext : Ext) (env : Env) (st : St) : St × Option String :=
  send_daily_go ext env (todayOf env) env.users st

/-- The return job's campus→home journey resolution for one user (note
the reversed endpoint order relative to the daily job). -/
def return_journey (ext : Ext) (prefs : Option PrefRow) (today : Int) :
    Except String (Option Journey) :=
  let home := prefHome prefs
  if pyTruthyS home then
    match resolve_location ext "Campus Jungfernsee" with
    | .error e => .error e
    | .ok origin =>
      match resolve_location ext (home.getD "") with
      | .error e => .error e
      | .ok destination =>
        match build_journey origin destination prefs ext.route today with
        | .error e => .error e
        | .ok r => .ok r.2
  else .ok none

/-- One user's iteration of `send_return_reminders`: last-end lookup,
eligibility window, dedup check, journey resolution (uncaught on
failure), render, guarded send, record on non-raising send. -/
def send_return_user (ext : Ext) (env : Env) (today now : Int) (st : St)
    (uid : Nat) (email : String) : Except String St :=
  match last_class_end (env.classes uid) today with
  | none => .ok st
  | some lastEnd =>
    if eligibleWindow lastEnd now then
      if (uid, today, "return") ∈ st.reminder_logs then .ok st
      else
        let prefs := env.prefs uid
        match return_journey ext prefs today with
        | .error e => .error e
        | .ok j =>
          let classes := classes_for_day (env.classes uid) today
          let html := build_journey_email email classes j
          match ext.send email "CampusPulse reminder: time to head home" html with
          | .raised => .ok st
          | .sent => .ok { st with
              reminder_logs := st.reminder_logs ++ [(uid, today, "return")],
              sent := st.sent ++
                [⟨uid, today, "return", email,
                  "CampusPulse reminder: time to head home", html⟩] }
          | .skipped => .ok { st with
              reminder_logs := st.reminder_logs ++ [(uid, today, "return")] }
    else .ok st

/-- The return job's user loop. -/
def send_return_go (ext : Ext) (env : Env) (today now : Int) :
    List (Nat × String) → St → St × Option String
  | [], st => (st, none)
  | (uid, email) :: rest, st =>
    match send_return_user ext env today now st uid email with
    | .error e => (st, some e)
    | .ok st' => send_return_go ext env today now rest st'

/-- One tick of `send_return_reminders`. -/
def send_return_reminders (ext : Ext) (env : Env) (st : St) : St × Option String :=
  send_return_go ext env (todayOf env) env.now env.users st

/-- One scheduler firing of either job, with that firing's environment
and external-world behaviour. -/
inductive Tick where
  | daily (ext : Ext) (env : Env)
  | ret (ext : Ext) (env : Env)

/-- Run one tick, keeping the committed state (a propagated job
exception only aborts the rest of that tick). -/
def runTick : Tick → St → St
  | .daily ext env, st => (send_daily_emails ext env st).1
  | .ret ext env, st => (send_return_reminders ext env st).1

/-- Run a sequence of scheduler ticks. -/
def runTicks : List Tick → St → St
  | [], st => st
  | t :: ts, st => runTicks ts (runTick t st)

/-! ## Counting notifications per (user, day, kind) -/

/-- Number of `email_notifications` rows for `(u, d)`. -/
def enCount (st : St) (u : Nat) (d : Int) : Nat :=
  st.email_notifications.countP (fun p => decide (p = (u, d)))

/-- Number of `reminder_logs` rows for `(u, d, k)`. -/
def rlCount (st : St) (u : Nat) (d : Int) (k : String) : Nat :=
  st.reminder_logs.countP (fun p => decide (p = (u, d, k)))

/-- Number of dispatched emails for `(u, d, k)`. -/
def sentCount (st : St) (u : Nat) (d : Int) (k : String) : Nat :=
  st.sent.countP (fun s => decide (s.uid = u ∧ s.day = d ∧ s.kind = k))

/-- The at-most-once invariant: each dedup tuple occurs at most once and
dominates the number of dispatched emails of its kind. -/
def Inv (st : St) : Prop :=
  ∀ u d, enCount st u d ≤ 1 ∧ (∀ k, rlCount st u d k ≤ 1) ∧
    sentCount st u d "daily" ≤ enCount st u d ∧
    sentCount st u d "return" ≤ rlCount st u d "return"

/-! ## Helper lemmas -/

lemma foldl_append_map {α : Type} (f : α → String) :
    ∀ (l : List α) (s : String),
      l.foldl (fun acc x => acc ++ f x) s = s ++ joinStr (l.map f)
  | [], s => by simp [joinStr, String.append_empty]
  | x :: xs, s => by
    simp only [List.foldl_cons, List.map_cons, joinStr]
    rw [foldl_append_map f xs (s ++ f x), String.append_assoc]

lemma classRowHtml_length_pos (c : ClassRow) : 0 < (classRowHtml c).length := by
  simp only [classRowHtml]
  rw [String.length_append, String.length_append, String.length_append,
    String.length_append, String.length_append, String.length_append]
  have h8 : ("<tr><td>" : String).length = 8 := rfl
  omega

lemma joinStr_classRows_eq_empty_iff (cs : List ClassRow) :
    joinStr (cs.map classRowHtml) = "" ↔ cs = [] := by
  cases cs with
  | nil => simp [joinStr]
  | cons c cs =>
    simp only [List.map_cons, joinStr]
    constructor
    · intro h
      have hlen := congrArg String.length h
      rw [String.length_append] at hlen
      have h0 : ("" : String).length = 0 := rfl
      have hc := classRowHtml_length_pos c
      omega
    · intro h
      exact absurd h (by simp)

lemma build_journey_email_eq_spec (user_email : String) (classes : List ClassRow)
    (journey : Option Journey) :
    build_journey_email user_email classes journey =
      specRenderEmail user_email classes journey := by
  have hrows : classes.foldl (fun acc c => acc ++ classRowHtml c) "" =
      joinStr (classes.map classRowHtml) := by
    rw [foldl_append_map, String.empty_append]
  simp only [build_journey_email, specRenderEmail, hrows]
  have hcls : (if joinStr (classes.map classRowHtml) = "" then noClassesRow
      else joinStr (classes.map classRowHtml)) = specClassRows classes := by
    unfold specClassRows
    by_cases h : joinStr (classes.map classRowHtml) = ""
    · rw [if_pos h, if_pos]
      simpa using (joinStr_classRows_eq_empty_iff classes).mp h
    · rw [if_neg h, if_neg]
      intro hem
      exact h ((joinStr_classRows_eq_empty_iff classes).mpr (by simpa using hem))
  rw [hcls]
  cases journey with
  | none => rfl
  | some j =>
    simp only [specJourneySection]
    rw [foldl_append_map, String.empty_append]

lemma checkedId_eq_specDigitSeg (v : Option String) :
    checkedId v = specDigitSeg v := by
  cases v with
  | none => rfl
  | some s =>
    by_cases hs : s = ""
    · subst hs; decide
    · simp only [checkedId, pick_id, specDigitSeg, Option.bind_some, if_neg hs]
      by_cases hseg : lastColonSeg s = ""
      · simp [hseg]
      · simp only [if_neg hseg]
        by_cases hdig : (lastColonSeg s).toList.all Char.isDigit
        · simp [pyIsDigit, hseg, hdig]
        · simp [pyIsDigit, hseg, hdig]

/-! ## Claim theorems -/

/-- C3 counterexample: the claim asserts that with the latest class end
at 14:00 (minute 840 of the day) the user is *not* eligible at 13:30
(minute 810); the code's window test is inclusive on the left boundary,
so the user *is* eligible there. -/
theorem c3_counterexample : ¬ (eligibleWindow 840 810 = false) := by decide

/-- C3 (amended): with the latest class end at 14:00 (minute 840) the
eligibility window is `[13:30, 13:35]` = `[810, 815]`, inclusive at both
boundaries: eligible at 13:30 and 13:31, not eligible at 13:36. -/
theorem c3_amended_window :
    eligibleWindow 840 810 = true ∧ eligibleWindow 840 811 = true ∧
    eligibleWindow 840 816 = false ∧
    (∀ now : Int, eligibleWindow 840 now = true ↔ 810 ≤ now ∧ now ≤ 815) := by
  refine ⟨by decide, by decide, by decide, ?_⟩
  intro now
  unfold eligibleWindow
  simp only [Bool.and_eq_true, decide_eq_true_eq]
  omega

/-- C5: `normalize_stop_id` tries the `ibnr` field, then the `id` field,
then the nested station's `id` field, reducing each value to the final
segment of its colon-delimited form and accepting that segment only when
it consists entirely of digits (the `findSome?` reformulation follows the
spec's wording); `"900000012345"` is accepted, `"abc123"` rejected, and
with no accepting field the result is absent. -/
theorem c5_stop_id_normalization :
    (∀ item : Item, normalize_stop_id item =
      [item.ibnr, item.id, item.station.bind Station.id].findSome? specDigitSeg) ∧
    normalize_stop_id ⟨some "900000012345", none, none, none, none, none, none⟩ =
      some "900000012345" ∧
    normalize_stop_id ⟨some "abc123", none, none, none, none, none, none⟩ = none := by
  refine ⟨?_, by decide, by decide⟩
  intro item
  unfold normalize_stop_id
  rw [checkedId_eq_specDigitSeg item.ibnr, checkedId_eq_specDigitSeg item.id,
    checkedId_eq_specDigitSeg (item.station.bind Station.id)]
  cases hv1 : specDigitSeg item.ibnr <;> cases hv2 : specDigitSeg item.id <;>
    cases hv3 : specDigitSeg (item.station.bind Station.id) <;>
      simp [List.findSome?_cons, List.findSome?_nil, hv1, hv2, hv3]

/-- C6: `build_arrival_datetime("08:30", "earlier")` on day `today` is
that day's minute 500 (= 08:20); with `"later"` minute 520 (= 08:40);
and for every timing preference an absent or unparsable arrival-time
string yields no arrival constraint. -/
theorem c6_arrival_datetime :
    (∀ today : Int, build_arrival_datetime (some "08:30") "earlier" today =
      .ok (some (dayStart today + 500))) ∧
    (∀ today : Int, build_arrival_datetime (some "08:30") "later" today =
      .ok (some (dayStart today + 520))) ∧
    (∀ (pref : String) (today : Int),
      build_arrival_datetime none pref today = .ok none) ∧
    (∀ (s pref : String) (today : Int), parseHHMM s = none →
      build_arrival_datetime (some s) pref today = .ok none) := by
  refine ⟨?_, ?_, fun pref today => rfl, ?_⟩
  · intro today
    have h : build_arrival_datetime (some "08:30") "earlier" today =
        .ok (some (dayStart today + 8 * 60 + 30 + -10)) := rfl
    rw [h, show dayStart today + 8 * 60 + 30 + -10 = dayStart today + 500 from by omega]
  · intro today
    have h : build_arrival_datetime (some "08:30") "later" today =
        .ok (some (dayStart today + 8 * 60 + 30 + 10)) := rfl
    rw [h, show dayStart today + 8 * 60 + 30 + 10 = dayStart today + 520 from by omega]
  · intro s pref today h
    unfold build_arrival_datetime
    by_cases hs : s = ""
    · simp [hs]
    · simp [hs, h]

/-- C6 witness: a concrete unparsable arrival time yields no constraint. -/
theorem c6_witness :
    parseHHMM "oops" = none ∧
    build_arrival_datetime (some "oops") "later" 5 = .ok none :=
  ⟨by decide, c6_arrival_datetime.2.2.2 "oops" "later" 5 (by decide)⟩

/-- C8: `build_journey_email` renders the supplied classes one row per
class in their given order (end time omitted when absent), renders a
single placeholder row exactly when the class list is empty, omits the
route section entirely for an absent journey, and renders one row per
leg for a present one — stated as equality with the spec-level renderer
`specRenderEmail`. -/
theorem c8_render_email :
    ∀ (user_email : String) (classes : List ClassRow) (journey : Option Journey),
      build_journey_email user_email classes journey =
        specRenderEmail user_email classes journey :=
  build_journey_email_eq_spec

/-- C4: `resolve_location` prefers a stop identifier over a bare
coordinate: when some candidate yields a stop id, the result is built
from the *first* such candidate (its id, its name, and its coordinate if
exposed); only when no candidate yields an id is the first
coordinate-bearing candidate returned, with the identifier absent. -/
theorem c4_resolver_priority (ext : Ext) (q : String) (items : List Item)
    (it : Item) (hsearch : ext.search q = .ok items) :
    (items.find? (fun i => (normalize_stop_id i).isSome) = some it →
      resolve_location ext q =
        .ok ⟨normalize_stop_id it, pyOrS it.name q, extract_coords it⟩) ∧
    (items.find? (fun i => (normalize_stop_id i).isSome) = none →
      items.find? (fun i => (extract_coords i).isSome) = some it →
      resolve_location ext q = .ok ⟨none, pyOrS it.name q, extract_coords it⟩) := by
  constructor
  · intro h1
    simp only [resolve_location, hsearch, h1]
  · intro h1 h2
    simp only [resolve_location, hsearch, h1, h2]

/-- First candidate for the C4 witness: only a coordinate, no stop id. -/
def c4Item1 : Item := ⟨none, none, none, some "Coord Only", some 52, some 13, none⟩

/-- Second candidate for the C4 witness: a valid numeric stop id. -/
def c4Item2 : Item := ⟨some "900000012345", none, none, some "Stop A", none, none, none⟩

/-- External world for the C4 witness. -/
def c4Ext : Ext :=
  { search := fun _ => .ok [c4Item1, c4Item2]
    geocode := fun _ => .ok none
    route := fun _ => .ok []
    send := fun _ _ _ => .raised }

/-- C4 witness: with a coordinate-only first candidate and an
id-bearing second candidate, the id-bearing result is returned. -/
theorem c4_witness :
    resolve_location c4Ext "somewhere" =
      .ok ⟨normalize_stop_id c4Item2, pyOrS c4Item2.name "somewhere",
        extract_coords c4Item2⟩ ∧
    normalize_stop_id c4Item2 = some "900000012345" ∧
    normalize_stop_id c4Item1 = none ∧
    extract_coords c4Item1 = some (52, 13) :=
  ⟨(c4_resolver_priority c4Ext "somewhere" [c4Item1, c4Item2] c4Item2 rfl).1
      (by decide),
    by decide, by decide, by decide⟩

/-- C7: `build_journey` issues no request and returns an absent journey
when the endpoints neither both carry ids nor both carry coordinates;
otherwise it issues the assembled request (id pair when both endpoints
carry truthy ids, else coordinate pair with names passed through) and
returns the response's first itinerary, absent exactly when the response
has zero itineraries. -/
theorem c7_build_journey (o d : ResolvedLoc) (prefs : Option PrefRow)
    (route : Request → Except String (List Journey)) (today : Int) :
    (journeyEndpoints o d = none →
      build_journey o d prefs route today = .ok (none, none)) ∧
    (journeyEndpoints o d = none ↔
      ¬(pyTruthyS o.id = true ∧ pyTruthyS d.id = true) ∧
        (o.coords = none ∨ d.coords = none)) ∧
    (∀ ep arr js, journeyEndpoints o d = some ep →
      build_arrival_datetime (prefArrival prefs) (prefTiming prefs) today = .ok arr →
      route (mkRequest ep prefs arr) = .ok js →
      build_journey o d prefs route today =
        .ok (some (mkRequest ep prefs arr), js.head?)) ∧
    (pyTruthyS o.id = true → pyTruthyS d.id = true →
      journeyEndpoints o d = some (.byId (o.id.getD "") (d.id.getD ""))) ∧
    (∀ fla flo tla tlo, ¬(pyTruthyS o.id = true ∧ pyTruthyS d.id = true) →
      o.coords = some (fla, flo) → d.coords = some (tla, tlo) →
      journeyEndpoints o d = some (.byCoords fla flo (pyOrStr o.name "Start")
        tla tlo (pyOrStr d.name "Campus Jungfernsee"))) := by
  refine ⟨?_, ?_, ?_, ?_, ?_⟩
  · intro h
    unfold build_journey
    rw [h]
  · unfold journeyEndpoints
    by_cases hid : pyTruthyS o.id && pyTruthyS d.id
    · rw [if_pos hid]
      simp only [Bool.and_eq_true] at hid
      simp [hid]
    · rw [if_neg hid]
      simp only [Bool.and_eq_true] at hid
      rcases hoc : o.coords with _ | ⟨fla, flo⟩ <;>
        rcases hdc : d.coords with _ | ⟨tla, tlo⟩ <;> simp [hid]
  · intro ep arr js h1 h2 h3
    simp only [build_journey, h1, h2, h3]
    cases js <;> simp [List.head?]
  · intro ho hd
    unfold journeyEndpoints
    rw [if_pos (by simp [ho, hd])]
  · intro fla flo tla tlo hid hoc hdc
    unfold journeyEndpoints
    rw [if_neg (by simpa using hid), hoc, hdc]

lemma countP_append_single {α : Type} (p : α → Bool) (l : List α) (a : α) :
    (l ++ [a]).countP p = l.countP p + (if p a then 1 else 0) := by
  simp [List.countP_append, List.countP_cons]

lemma send_daily_user_cases (ext : Ext) (env : Env) (today : Int) (st : St)
    (uid : Nat) (em : String) (st' : St)
    (h : send_daily_user ext env today st uid em = .ok st') :
    st' = st ∨
      ((uid, today) ∉ st.email_notifications ∧
        st'.email_notifications = st.email_notifications ++ [(uid, today)] ∧
        st'.reminder_logs = st.reminder_logs ∧
        (st'.sent = st.sent ∨ ∃ h₀ : String, st'.sent = st.sent ++
          [⟨uid, today, "daily", em, "CampusPulse daily reminder", h₀⟩])) := by
  simp only [send_daily_user] at h
  by_cases hmem : (uid, today) ∈ st.email_notifications
  · rw [if_pos hmem] at h
    simp only [Except.ok.injEq] at h
    exact Or.inl h.symm
  · rw [if_neg hmem] at h
    by_cases hcls : (classes_for_day (env.classes uid) today).isEmpty = true
    · rw [if_pos hcls] at h
      simp only [Except.ok.injEq] at h
      exact Or.inl h.symm
    · rw [if_neg hcls] at h
      cases hj : daily_journey ext (env.prefs uid) today with
      | error e => simp only [hj] at h; exact absurd h (by simp)
      | ok j =>
        simp only [hj] at h
        cases hsend : ext.send em "CampusPulse daily reminder"
            (build_journey_email em (classes_for_day (env.classes uid) today) j) with
        | sent =>
          simp only [hsend, Except.ok.injEq] at h
          refine Or.inr ⟨hmem, ?_, ?_, Or.inr
            ⟨build_journey_email em (classes_for_day (env.classes uid) today) j, ?_⟩⟩ <;>
            rw [← h]
        | skipped =>
          simp only [hsend, Except.ok.injEq] at h
          refine Or.inr ⟨hmem, ?_, ?_, Or.inl ?_⟩ <;> rw [← h]
        | raised =>
          simp only [hsend, Except.ok.injEq] at h
          exact Or.inl h.symm

lemma send_return_user_cases (ext : Ext) (env : Env) (today now : Int) (st : St)
    (uid : Nat) (em : String) (st' : St)
    (h : send_return_user ext env today now st uid em = .ok st') :
    st' = st ∨
      ((uid, today, "return") ∉ st.reminder_logs ∧
        st'.reminder_logs = st.reminder_logs ++ [(uid, today, "return")] ∧
        st'.email_notifications = st.email_notifications ∧
        (st'.sent = st.sent ∨ ∃ h₀ : String, st'.sent = st.sent ++
          [⟨uid, today, "return", em,
            "CampusPulse reminder: time to head home", h₀⟩])) := by
  simp only [send_return_user] at h
  cases hle : last_class_end (env.classes uid) today with
  | none =>
    simp only [hle, Except.ok.injEq] at h
    exact Or.inl h.symm
  | some lastEnd =>
    simp only [hle] at h
    by_cases hwin : eligibleWindow lastEnd now = true
    · rw [if_pos hwin] at h
      by_cases hmem : (uid, today, "return") ∈ st.reminder_logs
      · rw [if_pos hmem] at h
        simp only [Except.ok.injEq] at h
        exact Or.inl h.symm
      · rw [if_neg hmem] at h
        cases hj : return_journey ext (env.prefs uid) today with
        | error e => simp only [hj] at h; exact absurd h (by simp)
        | ok j =>
          simp only [hj] at h
          cases hsend : ext.send em "CampusPulse reminder: time to head home"
              (build_journey_email em (classes_for_day (env.classes uid) today) j) with
          | sent =>
            simp only [hsend, Except.ok.injEq] at h
            refine Or.inr ⟨hmem, ?_, ?_, Or.inr
              ⟨build_journey_email em (classes_for_day (env.classes uid) today) j, ?_⟩⟩ <;>
              rw [← h]
          | skipped =>
            simp only [hsend, Except.ok.injEq] at h
            refine Or.inr ⟨hmem, ?_, ?_, Or.inl ?_⟩ <;> rw [← h]
          | raised =>
            simp only [hsend, Except.ok.injEq] at h
            exact Or.inl h.symm
    · rw [if_neg hwin] at h
      simp only [Except.ok.injEq] at h
      exact Or.inl h.symm

lemma Inv_daily_user (ext : Ext) (env : Env) (today : Int) (st : St)
    (uid : Nat) (em : String) (st' : St) (hInv : Inv st)
    (h : send_daily_user ext env today st uid em = .ok st') : Inv st' := by
  rcases send_daily_user_cases ext env today st uid em st' h with rfl | ⟨hmem, hEN, hRL, hS⟩
  · exact hInv
  have hzero : enCount st uid today = 0 := by
    simp only [enCount, List.countP_eq_zero, decide_eq_true_eq]
    intro a ha hEq
    exact hmem (hEq ▸ ha)
  intro u d
  obtain ⟨h1, h2, h3, h4⟩ := hInv u d
  have hENc : enCount st' u d =
      enCount st u d + (if uid = u ∧ today = d then 1 else 0) := by
    simp [enCount, hEN, countP_append_single, List.countP_cons, List.countP_nil, Prod.mk.injEq]
  have hRLc : ∀ k, rlCount st' u d k = rlCount st u d k := by
    intro k; simp [rlCount, hRL]
  have hSD : sentCount st' u d "daily" =
      sentCount st u d "daily" + (if uid = u ∧ today = d then 1 else 0) ∨
      sentCount st' u d "daily" = sentCount st u d "daily" := by
    rcases hS with hS | ⟨h₀, hS⟩
    · exact Or.inr (by simp [sentCount, hS])
    · left
      simp [sentCount, hS, countP_append_single, List.countP_cons, List.countP_nil]
  have hSR : sentCount st' u d "return" = sentCount st u d "return" := by
    rcases hS with hS | ⟨h₀, hS⟩
    · simp [sentCount, hS]
    · simp [sentCount, hS, countP_append_single, List.countP_cons, List.countP_nil]
  by_cases hkey : uid = u ∧ today = d
  · obtain ⟨rfl, rfl⟩ := hkey
    rw [if_pos ⟨rfl, rfl⟩] at hENc
    refine ⟨by omega, fun k => by rw [hRLc]; exact h2 k, ?_, ?_⟩
    · rcases hSD with hSD | hSD
      · rw [if_pos ⟨rfl, rfl⟩] at hSD; omega
      · omega
    · rw [hSR, hRLc]; exact h4
  · rw [if_neg hkey] at hENc
    refine ⟨by omega, fun k => by rw [hRLc]; exact h2 k, ?_, ?_⟩
    · rcases hSD with hSD | hSD
      · rw [if_neg hkey] at hSD; omega
      · omega
    · rw [hSR, hRLc]; exact h4

lemma Inv_return_user (ext : Ext) (env : Env) (today now : Int) (st : St)
    (uid : Nat) (em : String) (st' : St) (hInv : Inv st)
    (h : send_return_user ext env today now st uid em = .ok st') : Inv st' := by
  rcases send_return_user_cases ext env today now st uid em st' h with
    rfl | ⟨hmem, hRL, hEN, hS⟩
  · exact hInv
  have hzero : rlCount st uid today "return" = 0 := by
    simp only [rlCount, List.countP_eq_zero, decide_eq_true_eq]
    intro a ha hEq
    exact hmem (hEq ▸ ha)
  intro u d
  obtain ⟨h1, h2, h3, h4⟩ := hInv u d
  have hENc : enCount st' u d = enCount st u d := by
    simp [enCount, hEN]
  have hRLc : ∀ k, rlCount st' u d k =
      rlCount st u d k + (if uid = u ∧ today = d ∧ "return" = k then 1 else 0) := by
    intro k
    simp [rlCount, hRL, countP_append_single, List.countP_cons, List.countP_nil, Prod.mk.injEq]
  have hSR : sentCount st' u d "return" =
      sentCount st u d "return" + (if uid = u ∧ today = d then 1 else 0) ∨
      sentCount st' u d "return" = sentCount st u d "return" := by
    rcases hS with hS | ⟨h₀, hS⟩
    · exact Or.inr (by simp [sentCount, hS])
    · left
      simp [sentCount, hS, countP_append_single, List.countP_cons, List.countP_nil]
  have hSD : sentCount st' u d "daily" = sentCount st u d "daily" := by
    rcases hS with hS | ⟨h₀, hS⟩
    · simp [sentCount, hS]
    · simp [sentCount, hS, countP_append_single, List.countP_cons, List.countP_nil]
  by_cases hkey : uid = u ∧ today = d
  · obtain ⟨rfl, rfl⟩ := hkey
    refine ⟨by omega, ?_, by rw [hSD, hENc]; exact h3, ?_⟩
    · intro k
      rw [hRLc k]
      by_cases hk : "return" = k
      · subst hk
        rw [if_pos ⟨rfl, rfl, rfl⟩]
        omega
      · rw [if_neg (by simp [hk])]
        have := h2 k
        omega
    · have hr := hRLc "return"
      rw [if_pos ⟨rfl, rfl, rfl⟩] at hr
      rcases hSR with hSR | hSR
      · rw [if_pos ⟨rfl, rfl⟩] at hSR; omega
      · omega
  · refine ⟨by omega, ?_, by rw [hSD, hENc]; exact h3, ?_⟩
    · intro k
      rw [hRLc k]
      rw [if_neg (by tauto)]
      have := h2 k
      omega
    · have hr := hRLc "return"
      rw [if_neg (by tauto)] at hr
      rcases hSR with hSR | hSR
      · rw [if_neg hkey] at hSR; omega
      · omega

lemma Inv_daily_go (ext : Ext) (env : Env) (today : Int) :
    ∀ (users : List (Nat × String)) (st : St), Inv st →
      Inv (send_daily_go ext env today users st).1 := by
  intro users
  induction users with
  | nil => intro st h; exact h
  | cons p rest ih =>
    intro st hInv
    obtain ⟨uid, em⟩ := p
    have hgo : send_daily_go ext env today ((uid, em) :: rest) st =
        match send_daily_user ext env today st uid em with
        | .error e => (st, some e)
        | .ok st' => send_daily_go ext env today rest st' := rfl
    rw [hgo]
    cases hstep : send_daily_user ext env today st uid em with
    | error e => exact hInv
    | ok st' => exact ih st' (Inv_daily_user ext env today st uid em st' hInv hstep)

lemma Inv_return_go (ext : Ext) (env : Env) (today now : Int) :
    ∀ (users : List (Nat × String)) (st : St), Inv st →
      Inv (send_return_go ext env today now users st).1 := by
  intro users
  induction users with
  | nil => intro st h; exact h
  | cons p rest ih =>
    intro st hInv
    obtain ⟨uid, em⟩ := p
    have hgo : send_return_go ext env today now ((uid, em) :: rest) st =
        match send_return_user ext env today now st uid em with
        | .error e => (st, some e)
        | .ok st' => send_return_go ext env today now rest st' := rfl
    rw [hgo]
    cases hstep : send_return_user ext env today now st uid em with
    | error e => exact hInv
    | ok st' =>
      exact ih st' (Inv_return_user ext env today now st uid em st' hInv hstep)

lemma Inv_runTick (t : Tick) (st : St) (hInv : Inv st) : Inv (runTick t st) := by
  cases t with
  | daily ext env => exact Inv_daily_go ext env (todayOf env) env.users st hInv
  | ret ext env => exact Inv_return_go ext env (todayOf env) env.now env.users st hInv

lemma Inv_runTicks (ticks : List Tick) :
    ∀ st : St, Inv st → Inv (runTicks ticks st) := by
  induction ticks with
  | nil => intro st h; exact h
  | cons t ts ih => intro st h; exact ih (runTick t st) (Inv_runTick t st h)

lemma Inv_initSt : Inv initSt := by
  intro u d
  refine ⟨by simp [enCount, initSt], fun k => by simp [rlCount, initSt], ?_, ?_⟩ <;>
    simp [sentCount, enCount, rlCount, initSt]

/-- C7 witness: an id-pair request is issued and the first itinerary of a
one-element response is returned. -/
theorem c7_witness :
    journeyEndpoints ⟨some "123", "A", none⟩ ⟨some "456", "B", none⟩ =
      some (.byId "123" "456") ∧
    build_journey ⟨some "123", "A", none⟩ ⟨some "456", "B", none⟩ none
        (fun _ => .ok [⟨none⟩]) 0 =
      .ok (some (mkRequest (.byId "123" "456") none none),
        ([(⟨none⟩ : Journey)]).head?) :=
  ⟨by decide,
    (c7_build_journey ⟨some "123", "A", none⟩ ⟨some "456", "B", none⟩ none
        (fun _ => .ok [⟨none⟩]) 0).2.2.1 (.byId "123" "456") none [⟨none⟩]
      (by decide) rfl rfl⟩

/-- C1: starting from an empty database, after any sequence of ticks of
the two scheduler jobs — each tick with its own users, preferences,
classes, clock, and external-world behaviour — every (user, day) holds
at most one `email_notifications` row, every (user, day, kind) at most
one `reminder_logs` row, and at most one email was dispatched for each
(user, day, kind ∈ {daily, return}) tuple. -/
theorem c1_at_most_once (ticks : List Tick) (u : Nat) (d : Int) (k : String) :
    enCount (runTicks ticks initSt) u d ≤ 1 ∧
    rlCount (runTicks ticks initSt) u d k ≤ 1 ∧
    sentCount (runTicks ticks initSt) u d "daily" ≤ 1 ∧
    sentCount (runTicks ticks initSt) u d "return" ≤ 1 := by
  obtain ⟨h1, h2, h3, h4⟩ := Inv_runTicks ticks initSt Inv_initSt u d
  exact ⟨h1, h2 k, le_trans h3 h1, le_trans h4 (h2 "return")⟩

/-- External world for the C2 evidence: the transit search raises on
every query, email delivery would succeed. -/
def c2Ext : Ext :=
  { search := fun _ => .error "BVG request failed: ConnectError"
    geocode := fun _ => .ok none
    route := fun _ => .ok []
    send := fun _ _ _ => .sent }

/-- Preferences of the affected user in the C2 evidence: a home location
is set, so the daily job attempts location resolution. -/
def c2PrefRow : PrefRow :=
  { allow_ubahn := true, allow_sbahn := true, allow_regional := true,
    allow_tram := true, allow_bus := true, timing_pref := "earlier",
    arrival_time := none, home_location := some "Hauptstrasse 1" }

/-- Environment for the C2 evidence: user 1 (home set, classes today) is
hit by the search failure; user 2 (no home, classes today) follows. -/
def c2Env : Env :=
  { users := [(1, "a@ue-germany.de"), (2, "b@ue-germany.de")]
    prefs := fun u => if u = 1 then some c2PrefRow else none
    classes := fun _ => [⟨"Algorithms", 600, some 690, "H1"⟩]
    now := 450 }

/-- C2 counterexample: in the daily job the external-API failure of
user 1's location resolution propagates (only `send_brevo_email` is
wrapped in `try/except` in the source), aborting the tick before
user 2 — who, run on their own, would have received a record — is
processed.  This falsifies the claim that an external-API error "causes
only that user to be skipped and never aborts processing of the
remaining users". -/
theorem c2_api_error_aborts_tick :
    (send_daily_emails c2Ext c2Env initSt).2 = some "BVG request failed: ConnectError" ∧
    (send_daily_emails c2Ext c2Env initSt).1 = initSt ∧
    (send_daily_go c2Ext c2Env 0 [(2, "b@ue-germany.de")] initSt).1.email_notifications =
      [(2, 0)] :=
  ⟨rfl, rfl, rfl⟩

lemma daily_user_no_api_error_ok (ext : Ext) (env : Env) (today : Int)
    (st : St) (uid : Nat) (em : String)
    (hj : ∀ e, daily_journey ext (env.prefs uid) today ≠ .error e) :
    ∃ st', send_daily_user ext env today st uid em = .ok st' := by
  cases hres : send_daily_user ext env today st uid em with
  | ok st' => exact ⟨st', rfl⟩
  | error e =>
    exfalso
    simp only [send_daily_user] at hres
    by_cases hmem : (uid, today) ∈ st.email_notifications
    · rw [if_pos hmem] at hres
      exact Except.noConfusion hres
    · rw [if_neg hmem] at hres
      by_cases hcls : (classes_for_day (env.classes uid) today).isEmpty = true
      · rw [if_pos hcls] at hres
        exact Except.noConfusion hres
      · rw [if_neg hcls] at hres
        cases hdj : daily_journey ext (env.prefs uid) today with
        | error e₁ => exact hj e₁ hdj
        | ok j =>
          simp only [hdj] at hres
          cases hsend : ext.send em "CampusPulse daily reminder"
              (build_journey_email em (classes_for_day (env.classes uid) today) j) <;>
            simp only [hsend] at hres <;> exact Except.noConfusion hres

lemma daily_go_no_abort (ext : Ext) (env : Env) (today : Int) :
    ∀ (users : List (Nat × String)) (st : St),
      (∀ p ∈ users, ∀ e, daily_journey ext (env.prefs p.1) today ≠ .error e) →
      (send_daily_go ext env today users st).2 = none := by
  intro users
  induction users with
  | nil => intro st h; rfl
  | cons p rest ih =>
    intro st h
    obtain ⟨uid, em⟩ := p
    have hgo : send_daily_go ext env today ((uid, em) :: rest) st =
        match send_daily_user ext env today st uid em with
        | .error e => (st, some e)
        | .ok st' => send_daily_go ext env today rest st' := rfl
    rw [hgo]
    obtain ⟨st', hst'⟩ := daily_user_no_api_error_ok ext env today st uid em
      (fun e => h (uid, em) (List.mem_cons_self _ _) e)
    simp only [hst']
    exact ih st' (fun q hq e => h q (List.mem_cons_of_mem _ hq) e)

lemma return_user_no_api_error_ok (ext : Ext) (env : Env) (today now : Int)
    (st : St) (uid : Nat) (em : String)
    (hj : ∀ e, return_journey ext (env.prefs uid) today ≠ .error e) :
    ∃ st', send_return_user ext env today now st uid em = .ok st' := by
  cases hres : send_return_user ext env today now st uid em with
  | ok st' => exact ⟨st', rfl⟩
  | error e =>
    exfalso
    simp only [send_return_user] at hres
    cases hle : last_class_end (env.classes uid) today with
    | none =>
      simp only [hle] at hres
      exact Except.noConfusion hres
    | some lastEnd =>
      simp only [hle] at hres
      by_cases hwin : eligibleWindow lastEnd now = true
      · rw [if_pos hwin] at hres
        by_cases hmem : (uid, today, "return") ∈ st.reminder_logs
        · rw [if_pos hmem] at hres
          exact Except.noConfusion hres
        · rw [if_neg hmem] at hres
          cases hdj : return_journey ext (env.prefs uid) today with
          | error e₁ => exact hj e₁ hdj
          | ok j =>
            simp only [hdj] at hres
            cases hsend : ext.send em "CampusPulse reminder: time to head home"
                (build_journey_email em (classes_for_day (env.classes uid) today) j) <;>
              simp only [hsend] at hres <;> exact Except.noConfusion hres
      · rw [if_neg hwin] at hres
        exact Except.noConfusion hres

lemma return_go_no_abort (ext : Ext) (env : Env) (today now : Int) :
    ∀ (users : List (Nat × String)) (st : St),
      (∀ p ∈ users, ∀ e, return_journey ext (env.prefs p.1) today ≠ .error e) →
      (send_return_go ext env today now users st).2 = none := by
  intro users
  induction users with
  | nil => intro st h; rfl
  | cons p rest ih =>
    intro st h
    obtain ⟨uid, em⟩ := p
    have hgo : send_return_go ext env today now ((uid, em) :: rest) st =
        match send_return_user ext env today now st uid em with
        | .error e => (st, some e)
        | .ok st' => send_return_go ext env today now rest st' := rfl
    rw [hgo]
    obtain ⟨st', hst'⟩ := return_user_no_api_error_ok ext env today now st uid em
      (fun e => h (uid, em) (List.mem_cons_self _ _) e)
    simp only [hst']
    exact ih st' (fun q hq e => h q (List.mem_cons_of_mem _ hq) e)

/-- C2 (amended): in both periodic jobs an *email-send* failure is
isolated — the user is skipped with no notification record written and
the job proceeds; and when no user's external-API call errors, a tick
processes its whole user list without aborting.  (An external-API error
during location resolution or journey routing, by the counterexample,
aborts the remaining users of the tick.) -/
theorem c2_amended :
    (∀ (ext : Ext) (env : Env) (today : Int) (st : St) (uid : Nat) (em : String)
      (j : Option Journey),
      daily_journey ext (env.prefs uid) today = .ok j →
      (∀ h₀ : String, ext.send em "CampusPulse daily reminder" h₀ = .raised) →
      send_daily_user ext env today st uid em = .ok st) ∧
    (∀ (ext : Ext) (env : Env) (today : Int) (users : List (Nat × String)) (st : St),
      (∀ p ∈ users, ∀ e, daily_journey ext (env.prefs p.1) today ≠ .error e) →
      (send_daily_go ext env today users st).2 = none) ∧
    (∀ (ext : Ext) (env : Env) (today now : Int) (st : St) (uid : Nat) (em : String)
      (j : Option Journey),
      return_journey ext (env.prefs uid) today = .ok j →
      (∀ h₀ : String, ext.send em "CampusPulse reminder: time to head home" h₀ = .raised) →
      send_return_user ext env today now st uid em = .ok st) ∧
    (∀ (ext : Ext) (env : Env) (today now : Int) (users : List (Nat × String)) (st : St),
      (∀ p ∈ users, ∀ e, return_journey ext (env.prefs p.1) today ≠ .error e) →
      (send_return_go ext env today now users st).2 = none) := by
  refine ⟨?_, ?_, ?_, ?_⟩
  · intro ext env today st uid em j hj hsend
    simp only [send_daily_user]
    by_cases hmem : (uid, today) ∈ st.email_notifications
    · rw [if_pos hmem]
    · by_cases hcls : (classes_for_day (env.classes uid) today).isEmpty = true
      · rw [if_neg hmem, if_pos hcls]
      · rw [if_neg hmem, if_neg hcls]
        simp only [hj, hsend]
  · intro ext env today users st h
    exact daily_go_no_abort ext env today users st h
  · intro ext env today now st uid em j hj hsend
    cases hle : last_class_end (env.classes uid) today with
    | none => simp only [send_return_user, hle]
    | some lastEnd =>
      by_cases hwin : eligibleWindow lastEnd now = true
      · by_cases hmem : (uid, today, "return") ∈ st.reminder_logs
        · simp only [send_return_user, hle, if_pos hwin, if_pos hmem]
        · simp only [send_return_user, hle, if_pos hwin, if_neg hmem, hj, hsend]
      · simp only [send_return_user, hle, if_neg hwin]
  · intro ext env today now users st h
    exact return_go_no_abort ext env today now users st h

/-- External world for the C2 amended-claim witness: all API calls
succeed, email delivery raises on every attempt. -/
def c2bExt : Ext :=
  { search := fun _ => .ok []
    geocode := fun _ => .ok none
    route := fun _ => .ok []
    send := fun _ _ _ => .raised }

/-- Environment for the C2 amended-claim witness: one user with a class
today and no home location. -/
def c2bEnv : Env :=
  { users := [(3, "c@ue-germany.de")]
    prefs := fun _ => none
    classes := fun _ => [⟨"Databases", 540, some 630, "H2"⟩]
    now := 400 }

/-- C2 witness: with a concrete send-raising world, the failing user is
skipped with the store unchanged, and the tick completes without
aborting. -/
theorem c2_amended_witness :
    send_daily_user c2bExt c2bEnv 0 initSt 3 "c@ue-germany.de" = .ok initSt ∧
    (send_daily_go c2bExt c2bEnv 0 c2bEnv.users initSt).2 = none :=
  ⟨c2_amended.1 c2bExt c2bEnv 0 initSt 3 "c@ue-germany.de" none rfl (fun _ => rfl),
    c2_amended.2.1 c2bExt c2bEnv 0 c2bEnv.users initSt (by
      intro p hp e hcontra
      have hp' : p = (3, "c@ue-germany.de") := by simpa [c2bEnv] using hp
      subst hp'
      rw [show daily_journey c2bExt (c2bEnv.prefs (3, "c@ue-germany.de").1) 0 =
        Except.ok none from rfl] at hcontra
      exact Except.noConfusion hcontra)⟩

/-- The `email_notifications` rows belonging to one user. -/
def userDailyRecords (st : St) (u : Nat) : List (Nat × Int) :=
  st.email_notifications.filter (fun p => decide (p.1 = u))

/-- Dispatched emails belonging to one user. -/
def userSentLog (st : St) (u : Nat) : List Sent :=
  st.sent.filter (fun s => decide (s.uid = u))

lemma c9_go (ext : Ext) (env : Env) (today : Int) (u : Nat)
    (h : classes_for_day (env.classes u) today = []) :
    ∀ (users : List (Nat × String)) (st : St),
      userDailyRecords (send_daily_go ext env today users st).1 u =
        userDailyRecords st u ∧
      userSentLog (send_daily_go ext env today users st).1 u = userSentLog st u := by
  intro users
  induction users with
  | nil => intro st; exact ⟨rfl, rfl⟩
  | cons p rest ih =>
    intro st
    obtain ⟨uid, em⟩ := p
    have hgo : send_daily_go ext env today ((uid, em) :: rest) st =
        match send_daily_user ext env today st uid em with
        | .error e => (st, some e)
        | .ok st' => send_daily_go ext env today rest st' := rfl
    rw [hgo]
    cases hstep : send_daily_user ext env today st uid em with
    | error e => exact ⟨rfl, rfl⟩
    | ok st' =>
      have hframe : userDailyRecords st' u = userDailyRecords st u ∧
          userSentLog st' u = userSentLog st u := by
        by_cases huid : uid = u
        · subst huid
          have hskip : send_daily_user ext env today st uid em = .ok st := by
            simp only [send_daily_user]
            by_cases hmem : (uid, today) ∈ st.email_notifications
            · rw [if_pos hmem]
            · rw [if_neg hmem, if_pos (by rw [h]; rfl)]
          rw [hskip] at hstep
          simp only [Except.ok.injEq] at hstep
          rw [← hstep]
          exact ⟨rfl, rfl⟩
        · rcases send_daily_user_cases ext env today st uid em st' hstep with
            rfl | ⟨hmem, hEN, hRL, hS⟩
          · exact ⟨rfl, rfl⟩
          · constructor
            · simp [userDailyRecords, hEN, List.filter_append, huid]
            · rcases hS with hS | ⟨h₀, hS⟩
              · simp [userSentLog, hS]
              · simp [userSentLog, hS, List.filter_append, huid]
      obtain ⟨hf1, hf2⟩ := hframe
      exact ⟨by rw [(ih st').1, hf1], by rw [(ih st').2, hf2]⟩

/-- C9: a user with zero classes on the tick's day is left untouched by
the daily job: their `email_notifications` rows and their dispatched
emails are exactly what they were before the tick. -/
theorem c9_empty_day_frame (ext : Ext) (env : Env) (st : St) (u : Nat)
    (h : classes_for_day (env.classes u) (todayOf env) = []) :
    userDailyRecords (send_daily_emails ext env st).1 u = userDailyRecords st u ∧
    userSentLog (send_daily_emails ext env st).1 u = userSentLog st u :=
  c9_go ext env (todayOf env) u h env.users st

/-- External world for the C9 witness (benign everywhere). -/
def c9Ext : Ext :=
  { search := fun _ => .ok []
    geocode := fun _ => .ok none
    route := fun _ => .ok []
    send := fun _ _ _ => .sent }

/-- Environment for the C9 witness: the sole user has no classes. -/
def c9Env : Env :=
  { users := [(7, "idle@ue-germany.de")]
    prefs := fun _ => none
    classes := fun _ => []
    now := 420 }

/-- C9 witness: a concrete user with an empty day is untouched by a
daily tick. -/
theorem c9_witness :
    classes_for_day (c9Env.classes 7) (todayOf c9Env) = [] ∧
    userDailyRecords (send_daily_emails c9Ext c9Env initSt).1 7 =
      userDailyRecords initSt 7 ∧
    userSentLog (send_daily_emails c9Ext c9Env initSt).1 7 = userSentLog initSt 7 :=
  ⟨by decide, (c9_empty_day_frame c9Ext c9Env initSt 7 (by decide)).1,
    (c9_empty_day_frame c9Ext c9Env initSt 7 (by decide)).2⟩

lemma mem_insertByStart (x c : ClassRow) (l : List ClassRow) :
    x ∈ insertByStart c l ↔ x = c ∨ x ∈ l := by
  induction l with
  | nil => simp [insertByStart]
  | cons d ds ih =>
    simp only [insertByStart]
    by_cases hle : c.start_time ≤ d.start_time
    · rw [if_pos hle]
      simp [List.mem_cons]
    · rw [if_neg hle]
      simp [List.mem_cons, ih]
      tauto

lemma mem_sortByStart (x : ClassRow) (l : List ClassRow) :
    x ∈ sortByStart l ↔ x ∈ l := by
  induction l with
  | nil => simp [sortByStart]
  | cons c cs ih =>
    have hfold : sortByStart (c :: cs) = insertByStart c (sortByStart cs) := rfl
    rw [hfold, mem_insertByStart]
    simp [ih, List.mem_cons]

/-- The overnight class of the C10 evidence: starts day 0 at 23:00
(minute 1380), ends day 1 at 00:30 (minute 1470). -/
def c10Class : ClassRow := ⟨"Night Lab", 1380, some 1470, "Hall 2"⟩

/-- External world for the C10 evidence (benign everywhere). -/
def c10Ext : Ext :=
  { search := fun _ => .ok []
    geocode := fun _ => .ok none
    route := fun _ => .ok []
    send := fun _ _ _ => .sent }

/-- Environment for the C10 evidence: one user whose only class is the
overnight class; the tick fires at day 1, 00:00 (minute 1440). -/
def c10Env : Env :=
  { users := [(1, "u@ue-germany.de")]
    prefs := fun _ => none
    classes := fun _ => [c10Class]
    now := 1440 }

/-- C10: `last_class_end` selects classes by end time inside the day
while `classes_for_day` selects by start time inside the day; a class
that starts before midnight and ends today makes the user eligible for
the return reminder (a `reminder_logs` row is written), yet the email
dispatched to them is rendered from an empty class list — it has no row
for that class. -/
theorem c10_day_selection_mismatch :
    (∀ (rows : List ClassRow) (day : Int) (c : ClassRow),
      c ∈ classes_for_day rows day ↔
        c ∈ rows ∧ dayStart day ≤ c.start_time ∧ c.start_time ≤ dayEndMax day) ∧
    (∀ (c : ClassRow) (e day : Int), c.start_time < dayStart day →
      c.end_time = some e → dayStart day ≤ e → e ≤ dayEndMax day →
      last_class_end [c] day = some e ∧ classes_for_day [c] day = []) ∧
    ((send_return_reminders c10Ext c10Env initSt).1.reminder_logs =
      [(1, 1, "return")] ∧
     (send_return_reminders c10Ext c10Env initSt).1.sent.map Sent.html =
      [build_journey_email "u@ue-germany.de" [] none]) := by
  refine ⟨?_, ?_, rfl, rfl⟩
  · intro rows day c
    unfold classes_for_day
    rw [mem_sortByStart, List.mem_filter]
    simp
  · intro c e day h1 h2 h3 h4
    constructor
    · simp [last_class_end, h2, h3, h4, List.max?]
    · have hlt : ¬ (dayStart day ≤ c.start_time) := by omega
      simp [classes_for_day, sortByStart, List.filter, hlt]

/-- C10 witness: the concrete overnight class drives `last_class_end`
but is excluded from `classes_for_day`. -/
theorem c10_witness :
    last_class_end [c10Class] 1 = some 1470 ∧ classes_for_day [c10Class] 1 = [] :=
  c10_day_selection_mismatch.2.1 c10Class 1470 1 (by decide) rfl (by decide) (by decide)

end CampusPulse
